import Mathlib

/-!
Verification of the idea-CRUD application (Dioxus + SurrealDB template).

The data model (`Idea`, `IdeaRecord`, the record-to-idea conversion) and the
five server endpoints are shallowly embedded from `src/db.rs` and
`src/server_functions.rs`.  The underlying document store (SurrealDB) is an
external dependency of the repository; its key-document behaviour
(`create` / `select` / `update` / `delete` by table and key) is modelled from
the specification's Record Store contract (spec section 4.1).  Endpoints that
mutate state are embedded as state-passing functions `Store → ... → Store × Except String α`;
read-only endpoints return `Except String α`.
-/

/-- Model of `surrealdb::sql::Thing`: a record pointer made of a table name
and a record key. -/
structure Thing where
  tb : String
  id : String
deriving DecidableEq

/-- Rendering of a `Thing` to its string form, as done by the surrealdb
`Display` implementation used via `thing.to_string()` in `db.rs`
(exercised by `test_idea_from_record_conversion`: `"ideas:test123"`). -/
def Thing.toString (t : Thing) : String :=
  t.tb ++ ":" ++ t.id

/-- `IdeaRecord` from `src/db.rs`: the server-side representation stored in
the database. -/
structure IdeaRecord where
  id : Option Thing
  title : String
  description : String
  tags : List String
  what_must_be_true : List String
  development_notes : String
deriving DecidableEq

/-- `Idea` from `src/db.rs`: the public-facing entity shared between client
and server. -/
structure Idea where
  id : Option String
  title : String
  description : String
  tags : List String
  what_must_be_true : List String
  development_notes : String
deriving DecidableEq

/-- `impl From<IdeaRecord> for Idea` in `src/db.rs`: the id is rendered with
`thing.to_string()`, every other field is moved verbatim. -/
def Idea.ofRecord (r : IdeaRecord) : Idea :=
  ⟨r.id.map Thing.toString, r.title, r.description, r.tags,
   r.what_must_be_true, r.development_notes⟩

/-- Splitting a character list at every occurrence of `c`, the semantics of
Rust `str::split(c)` restricted to a single-character pattern: `""` yields
`[""]`, `":"` yields `["", ""]`, separators are not kept. -/
def splitChar (c : Char) : List Char → List (List Char)
  | [] => [[]]
  | x :: xs =>
    if x = c then
      [] :: splitChar c xs
    else
      match splitChar c xs with
      | [] => [[x]]
      | y :: ys => (x :: y) :: ys

/-- String-level wrapper for `splitChar`; models the `id.split(':')` and
`tags_input.split(',')` calls of the source. -/
def splitStr (c : Char) (s : String) : List String :=
  (splitChar c s.data).map String.mk

/-- Store model.  Modelled from the spec: the Record Store (spec 4.1) is an
opaque key-document store; documents live in an association list keyed by
their `Thing`, and a counter feeds fresh-key generation for `create`. -/
structure Store where
  counter : Nat
  recs : List IdeaRecord
deriving DecidableEq

/-- The empty store. -/
def emptyStore : Store := ⟨0, []⟩

/-- Modelled from the spec: `create` "assigns a fresh unique key scoped to
the table"; keys produced here are `"k"`, `"kk"`, ... so that each create
yields a new key. -/
def freshKey (st : Store) : String :=
  String.mk (List.replicate (st.counter + 1) 'k')

/-- Modelled from the spec: `select_one(table, key)` returns the document if
present, else an empty result (spec 4.1). -/
def Store.selectOne (st : Store) (tb k : String) : Option IdeaRecord :=
  st.recs.find? (fun q => decide (q.id = some ⟨tb, k⟩))

/-- Modelled from the spec: `create(table, content)` inserts a new document
under a fresh key and returns the stored document including its assigned id
(spec 4.1).  The id carried inside `content` is replaced by the assigned one. -/
def Store.create (st : Store) (tb : String) (content : IdeaRecord) :
    Store × Option IdeaRecord :=
  let r : IdeaRecord :=
    ⟨some ⟨tb, freshKey st⟩, content.title, content.description,
     content.tags, content.what_must_be_true, content.development_notes⟩
  (⟨st.counter + 1, r :: st.recs⟩, some r)

/-- Modelled from the spec: `update(table, key, content)` replaces the full
document at `table:key` and returns the new stored value, or signals
not-found leaving the store unchanged (spec 4.1).  The path id is
authoritative: the stored document's id is `table:key` whatever id the
content carried. -/
def Store.update (st : Store) (tb k : String) (content : IdeaRecord) :
    Store × Option IdeaRecord :=
  match st.selectOne tb k with
  | none => (st, none)
  | some _ =>
    let r : IdeaRecord :=
      ⟨some ⟨tb, k⟩, content.title, content.description,
       content.tags, content.what_must_be_true, content.development_notes⟩
    (⟨st.counter, st.recs.map (fun q => if decide (q.id = some (⟨tb, k⟩ : Thing)) then r else q)⟩,
     some r)

/-- Modelled from the spec: `delete(table, key)` removes and returns the
document, or signals not-found (spec 4.1). -/
def Store.delete (st : Store) (tb k : String) : Store × Option IdeaRecord :=
  (⟨st.counter, st.recs.filter (fun q => ! decide (q.id = some (⟨tb, k⟩ : Thing)))⟩,
   st.selectOne tb k)

/-- Modelled from the spec: `select_all(table)` returns every document
stored under `table` (spec 4.1). -/
def Store.selectAll (st : Store) (tb : String) : List IdeaRecord :=
  st.recs.filter (fun q =>
    match q.id with
    | some th => decide (th.tb = tb)
    | none => false)

/-- `submit_idea_server` from `src/server_functions.rs`: builds an
`IdeaRecord` with `id = None`, empty checklist and empty notes, calls the
store `create` on table `"ideas"`, and converts the created record. -/
def submit_idea_server (st : Store) (title description : String)
    (tags : List String) : Store × Except String Idea :=
  let idea : IdeaRecord := ⟨none, title, description, tags, [], ""⟩
  let p := st.create "ideas" idea
  match p.2 with
  | some created => (p.1, .ok (Idea.ofRecord created))
  | none => (p.1, .error "Failed to create idea")

/-- `get_all_ideas_server` from `src/server_functions.rs`: selects every
record of the `"ideas"` table and converts each one. -/
def get_all_ideas_server (st : Store) : Except String (List Idea) :=
  .ok ((st.selectAll "ideas").map Idea.ofRecord)

/-- `get_idea_by_id_server` from `src/server_functions.rs`: splits the id on
`':'`, rejects any split that is not exactly two parts, then selects the
record and converts it, or fails with a not-found message. -/
def get_idea_by_id_server (st : Store) (id : String) : Except String Idea :=
  match splitStr ':' id with
  | [table, record_id] =>
    match st.selectOne table record_id with
    | some r => .ok (Idea.ofRecord r)
    | none => .error ("Idea not found: " ++ id)
  | _ => .error ("Invalid ID format: " ++ id)

/-- `delete_idea_server` from `src/server_functions.rs`: same id parsing,
then the store `delete`; the optional deleted record is bound to `_deleted`
and discarded, and unit is returned. -/
def delete_idea_server (st : Store) (id : String) : Store × Except String Unit :=
  match splitStr ':' id with
  | [table, record_id] =>
    let p := st.delete table record_id
    (p.1, .ok ())
  | _ => (st, .error ("Invalid ID format: " ++ id))

/-- `update_idea_server` from `src/server_functions.rs`: same id parsing,
builds the replacement content with `id: None` (the comment in the source:
"ID will be ignored in update"), calls the store `update`, converts the
result or fails with a not-found message. -/
def update_idea_server (st : Store) (id title description : String)
    (tags what_must_be_true : List String) (development_notes : String) :
    Store × Except String Idea :=
  match splitStr ':' id with
  | [table, record_id] =>
    let updated : IdeaRecord :=
      ⟨none, title, description, tags, what_must_be_true, development_notes⟩
    let p := st.update table record_id updated
    match p.2 with
    | some r => (p.1, .ok (Idea.ofRecord r))
    | none => (p.1, .error ("Idea not found: " ++ id))
  | _ => (st, .error ("Invalid ID format: " ++ id))

/-- Whitespace trimming on both ends of a character list, the semantics of
Rust `str::trim` used by the form's tag parsing. -/
def trimList (l : List Char) : List Char :=
  ((l.dropWhile Char.isWhitespace).reverse.dropWhile Char.isWhitespace).reverse

/-- String-level wrapper for `trimList`. -/
def trimStr (s : String) : String :=
  String.mk (trimList s.data)

/-- Tag normalization of the submit form (`src/components/idea_form.rs`):
split the input on `','`, trim each piece, drop empty pieces. -/
def parseTags (input : String) : List String :=
  ((splitStr ',' input).map trimStr).filter (fun s => ! s.isEmpty)

/-- The add-statement action of the Development view
(`src/views/idea_development.rs`): a non-empty new statement is appended to
the checklist; an empty one is ignored. -/
def addStatement (l : List String) (s : String) : List String :=
  if s.isEmpty then l else l ++ [s]

/-- The edit-statement action of the Development view: `list[idx] = e.value()`
replaces the statement at `idx` with the current input value, with no
emptiness check. -/
def editStatement (l : List String) (idx : Nat) (v : String) : List String :=
  l.set idx v

/-- The remove-statement action of the Development view: `list.remove(idx)`. -/
def removeStatement (l : List String) (idx : Nat) : List String :=
  l.eraseIdx idx

/-- Field-presence model of the serde encoding of `Idea` (`src/db.rs`):
`id` is skipped when `None` (`skip_serializing_if`), and
`what_must_be_true` / `development_notes` carry `#[serde(default)]`, so a
document may lack them (`none`) and deserialization fills in defaults. -/
structure IdeaDoc where
  id : Option String
  title : String
  description : String
  tags : List String
  what_must_be_true : Option (List String)
  development_notes : Option String
deriving DecidableEq

/-- Serialization of an `Idea`: all fields present (the id field is absent
exactly when `id` is `None`, which the `Option` already encodes). -/
def serializeIdea (i : Idea) : IdeaDoc :=
  ⟨i.id, i.title, i.description, i.tags,
   some i.what_must_be_true, some i.development_notes⟩

/-- Deserialization of a document into an `Idea`: missing
`what_must_be_true` defaults to `[]`, missing `development_notes` defaults
to `""`, per `#[serde(default)]`. -/
def deserializeIdea (d : IdeaDoc) : Idea :=
  ⟨d.id, d.title, d.description, d.tags,
   d.what_must_be_true.getD [], d.development_notes.getD ""⟩

/-! ### Helper lemmas -/

lemma stringMkData (s : String) : String.mk s.data = s := by
  cases s
  rfl

lemma splitChar_of_not_mem (c : Char) (l : List Char) (h : c ∉ l) :
    splitChar c l = [l] := by
  induction l with
  | nil => rfl
  | cons x xs ih =>
    have hx : ¬ x = c := fun he => h (he ▸ List.mem_cons_self x xs)
    have hxs : c ∉ xs := fun hm => h (List.mem_cons_of_mem x hm)
    simp [splitChar, hx, ih hxs]

lemma splitChar_append (c : Char) (a b : List Char) (h : c ∉ a) :
    splitChar c (a ++ c :: b) = a :: splitChar c b := by
  induction a with
  | nil => simp [splitChar]
  | cons x xs ih =>
    have hx : ¬ x = c := fun he => h (he ▸ List.mem_cons_self x xs)
    have hxs : c ∉ xs := fun hm => h (List.mem_cons_of_mem x hm)
    simp [splitChar, hx, ih hxs]

lemma splitStr_colon_pair (t k : String) (h₁ : ':' ∉ t.data) (h₂ : ':' ∉ k.data) :
    splitStr ':' (t ++ ":" ++ k) = [t, k] := by
  have hd : (t ++ ":" ++ k).data = t.data ++ ':' :: k.data := by
    simp [String.data_append]
  unfold splitStr
  rw [hd, splitChar_append ':' t.data (k.data) h₁, splitChar_of_not_mem ':' k.data h₂]
  simp [stringMkData]

lemma colon_not_mem_freshKey (st : Store) : ':' ∉ (freshKey st).data := by
  intro h
  have h2 : (':' : Char) = 'k' := List.eq_of_mem_replicate h
  simp at h2

lemma find?_map_if {α : Type} (p : α → Bool) (r w : α) (hp : p r = true)
    (l : List α) (hw : l.find? p = some w) :
    ((l.map fun q => if p q then r else q).find? p) = some r := by
  induction l with
  | nil => simp [List.find?] at hw
  | cons x xs ih =>
    by_cases hx : p x = true
    · rw [List.map_cons, if_pos hx]
      exact List.find?_cons_of_pos _ hp
    · rw [List.map_cons, if_neg hx, List.find?_cons_of_neg _ hx]
      rw [List.find?_cons_of_neg _ hx] at hw
      exact ih hw

lemma find?_filter_not {α : Type} (p : α → Bool) (l : List α) :
    ((l.filter fun q => ! p q).find? p) = none := by
  apply List.find?_eq_none.mpr
  intro x hx
  have h := (List.mem_filter.mp hx).2
  simp at h
  simp [h]

lemma filter_keep_of_none {α : Type} (p : α → Bool) (l : List α)
    (h : l.find? p = none) : (l.filter fun q => ! p q) = l := by
  apply List.filter_eq_self.mpr
  intro a ha
  have := List.find?_eq_none.mp h a ha
  simp at this
  simp [this]

lemma not_mem_parseTags_empty (input : String) : "" ∉ parseTags input := by
  intro h
  have h2 := (List.mem_filter.mp h).2
  simp [String.isEmpty] at h2

/-! ### Claim theorems -/

/-- Helper for the losslessness of the record-to-idea projection: a list with
a distinguished separator occurrence splits uniquely when the left part is
separator-free. -/
lemma append_cons_injective (c : Char) (a₁ : List Char) : ∀ (a₂ b₁ b₂ : List Char),
    c ∉ a₁ → c ∉ a₂ → a₁ ++ c :: b₁ = a₂ ++ c :: b₂ → a₁ = a₂ ∧ b₁ = b₂ := by
  induction a₁ with
  | nil =>
    intro a₂ b₁ b₂ _ h₂ h
    cases a₂ with
    | nil => exact ⟨rfl, by simpa using h⟩
    | cons y ys =>
      simp at h
      exact absurd (List.mem_cons.mpr (Or.inl h.1)) h₂
  | cons x xs ih =>
    intro a₂ b₁ b₂ h₁ h₂ h
    cases a₂ with
    | nil =>
      simp at h
      exact absurd (List.mem_cons.mpr (Or.inl h.1.symm)) h₁
    | cons y ys =>
      simp at h
      obtain ⟨hxy, h2⟩ := h
      have hx : c ∉ xs := fun hm => h₁ (List.mem_cons_of_mem _ hm)
      have hy : c ∉ ys := fun hm => h₂ (List.mem_cons_of_mem _ hm)
      obtain ⟨e1, e2⟩ := ih ys b₁ b₂ hx hy h2
      exact ⟨by rw [hxy, e1], e2⟩

/-- Claim C1, amended: an id string whose split on `':'` does not give
exactly two parts is rejected by GetById, Delete and Update with a format
error and without touching the store (the endpoint returns before any store
call, so the store component of the result is the input store).  The
original claim also demanded rejection of two-part ids with an empty part;
the code performs no such check (see the counterexample). -/
theorem invalid_id_format_error (st : Store) (id : String)
    (h : (splitStr ':' id).length ≠ 2) :
    get_idea_by_id_server st id = .error ("Invalid ID format: " ++ id) ∧
    delete_idea_server st id = (st, .error ("Invalid ID format: " ++ id)) ∧
    ∀ (title description : String) (tags wmbt : List String) (notes : String),
      update_idea_server st id title description tags wmbt notes
        = (st, .error ("Invalid ID format: " ++ id)) := by
  rcases hs : splitStr ':' id with _ | ⟨a, _ | ⟨b, _ | ⟨c, t⟩⟩⟩
  · simp [get_idea_by_id_server, delete_idea_server, update_idea_server, hs]
  · simp [get_idea_by_id_server, delete_idea_server, update_idea_server, hs]
  · rw [hs] at h
    simp at h
  · simp [get_idea_by_id_server, delete_idea_server, update_idea_server, hs]

/-- Witness for Claim C1's amended theorem at the colon-free id
`"noColonHere"`. -/
theorem invalid_id_format_error_witness :
    (splitStr ':' "noColonHere").length ≠ 2 ∧
    get_idea_by_id_server emptyStore "noColonHere"
      = .error ("Invalid ID format: " ++ "noColonHere") :=
  ⟨by decide, (invalid_id_format_error emptyStore "noColonHere" (by decide)).1⟩

/-- Counterexample to Claim C1 as stated: `"ideas:"` splits into two parts
one of which is empty, yet no endpoint returns a format error for it — with
a record stored under the empty key, GetById succeeds on `"ideas:"`; on an
empty store it returns a not-found (not format) error; and Delete actually
removes the record at the empty key and returns success, i.e. a store
operation is performed. -/
theorem empty_part_id_gets_no_format_error :
    splitStr ':' "ideas:" = ["ideas", ""] ∧
    get_idea_by_id_server (⟨0, [⟨some ⟨"ideas", ""⟩, "T", "D", [], [], ""⟩]⟩ : Store) "ideas:"
      = .ok ⟨some "ideas:", "T", "D", [], [], ""⟩ ∧
    get_idea_by_id_server emptyStore "ideas:" = .error "Idea not found: ideas:" ∧
    delete_idea_server (⟨0, [⟨some ⟨"ideas", ""⟩, "T", "D", [], [], ""⟩]⟩ : Store) "ideas:"
      = ((⟨0, []⟩ : Store), .ok ()) ∧
    splitStr ':' ":key" = ["", "key"] ∧
    get_idea_by_id_server emptyStore ":key" = .error "Idea not found: :key" :=
  ⟨rfl, rfl, rfl, rfl, rfl, rfl⟩

/-- Claim C2, amended: the form's tag normalization never produces an empty
tag (so Submit with form-parsed tags stores a record whose tags contain no
empty string), and the Development view's add action never adds an empty
checklist statement.  The original claim extended this to Update and to the
checklist edit action; those store their input verbatim and can persist an
empty-string element (see the counterexample). -/
theorem normalized_inputs_no_empty :
    (∀ input : String, "" ∉ parseTags input) ∧
    (∀ (l : List String) (s : String), "" ∉ l → "" ∉ addStatement l s) ∧
    (∀ (st : Store) (title description input : String),
      ∃ (r : IdeaRecord) (rest : List IdeaRecord),
        (submit_idea_server st title description (parseTags input)).1.recs = r :: rest ∧
        r.tags = parseTags input ∧ "" ∉ r.tags) := by
  refine ⟨not_mem_parseTags_empty, ?_, ?_⟩
  · intro l s hl hm
    unfold addStatement at hm
    by_cases hs : s.isEmpty
    · rw [if_pos hs] at hm
      exact hl hm
    · rw [if_neg hs] at hm
      rcases List.mem_append.mp hm with h | h
      · exact hl h
      · rcases List.mem_singleton.mp h with rfl
        simp [String.isEmpty] at hs
  · intro st title description input
    exact ⟨_, _, rfl, rfl, not_mem_parseTags_empty input⟩

/-- Witness for Claim C2's amended theorem: adding the empty statement to
the checklist `["x"]` leaves it without empty elements. -/
theorem normalized_inputs_no_empty_witness : "" ∉ addStatement ["x"] "" :=
  normalized_inputs_no_empty.2.1 ["x"] "" (by decide)

/-- Counterexample to Claim C2 as stated: the Development view's edit action
can turn the checklist statement `"x"` into `""`, and the auto-saved Update
persists the empty-string element — the stored record retrieved afterwards
contains `""` in `what_must_be_true`. -/
theorem checklist_edit_stores_empty_string :
    editStatement ["x"] 0 "" = [""] ∧
    update_idea_server (⟨1, [⟨some ⟨"ideas", "k"⟩, "T", "D", ["a"], ["x"], ""⟩]⟩ : Store)
        "ideas:k" "T" "D" ["a"] (editStatement ["x"] 0 "") ""
      = (⟨1, [⟨some ⟨"ideas", "k"⟩, "T", "D", ["a"], [""], ""⟩]⟩,
         .ok ⟨some "ideas:k", "T", "D", ["a"], [""], ""⟩) ∧
    (Store.selectOne ⟨1, [⟨some ⟨"ideas", "k"⟩, "T", "D", ["a"], [""], ""⟩]⟩ "ideas" "k")
      = some ⟨some ⟨"ideas", "k"⟩, "T", "D", ["a"], [""], ""⟩ ∧
    "" ∈ (⟨some (⟨"ideas", "k"⟩ : Thing), "T", "D", ["a"], [""], ""⟩ : IdeaRecord).what_must_be_true :=
  ⟨rfl, rfl, rfl, by decide⟩

/-- Claim C3 (confirmed): Submit stores a record with empty checklist and
empty notes and returns the converted idea; GetById on the returned id
yields an Idea structurally equal to the submitted fields with those empty
defaults. -/
theorem submit_then_get_round_trip (st : Store) (title description : String)
    (tags : List String) :
    ∃ (st' : Store) (ideaId : String),
      submit_idea_server st title description tags
        = (st', .ok ⟨some ideaId, title, description, tags, [], ""⟩) ∧
      get_idea_by_id_server st' ideaId
        = .ok ⟨some ideaId, title, description, tags, [], ""⟩ := by
  refine ⟨⟨st.counter + 1,
      ⟨some ⟨"ideas", freshKey st⟩, title, description, tags, [], ""⟩ :: st.recs⟩,
    "ideas" ++ ":" ++ freshKey st, rfl, ?_⟩
  have hsplit : splitStr ':' ("ideas" ++ ":" ++ freshKey st) = ["ideas", freshKey st] :=
    splitStr_colon_pair "ideas" (freshKey st) (by decide) (colon_not_mem_freshKey st)
  have hsel : Store.selectOne
      ⟨st.counter + 1, ⟨some ⟨"ideas", freshKey st⟩, title, description, tags, [], ""⟩ :: st.recs⟩
      "ideas" (freshKey st)
      = some ⟨some ⟨"ideas", freshKey st⟩, title, description, tags, [], ""⟩ := by
    unfold Store.selectOne
    exact List.find?_cons_of_pos _ (by simp)
  simp only [get_idea_by_id_server, hsplit, hsel]
  rfl

/-- Claim C4 (confirmed): for a well-formed id addressing an existing
record, Update replaces the full record content at the parsed table and key
— the stored record's id is the path id, whatever the content carried — and
GetById on the same id afterwards returns exactly the new field values
(covering the empty checklist and empty notes, since the checklist and notes
are universally quantified). -/
theorem update_then_get_exact (st : Store) (id t k title description : String)
    (tags wmbt : List String) (notes : String) (r : IdeaRecord)
    (hid : splitStr ':' id = [t, k]) (hr : st.selectOne t k = some r) :
    ∃ st' : Store,
      update_idea_server st id title description tags wmbt notes
        = (st', .ok ⟨some (t ++ ":" ++ k), title, description, tags, wmbt, notes⟩) ∧
      st'.selectOne t k = some ⟨some ⟨t, k⟩, title, description, tags, wmbt, notes⟩ ∧
      get_idea_by_id_server st' id
        = .ok ⟨some (t ++ ":" ++ k), title, description, tags, wmbt, notes⟩ := by
  have hr' : st.recs.find? (fun q => decide (q.id = some (⟨t, k⟩ : Thing))) = some r := hr
  refine ⟨⟨st.counter, st.recs.map
      (fun q => if decide (q.id = some (⟨t, k⟩ : Thing))
        then ⟨some ⟨t, k⟩, title, description, tags, wmbt, notes⟩ else q)⟩, ?_, ?_, ?_⟩
  · simp only [update_idea_server, hid, Store.update, hr]
    rfl
  · show (st.recs.map
        (fun q => if decide (q.id = some (⟨t, k⟩ : Thing))
          then ⟨some ⟨t, k⟩, title, description, tags, wmbt, notes⟩ else q)).find?
        (fun q => decide (q.id = some (⟨t, k⟩ : Thing)))
      = some ⟨some ⟨t, k⟩, title, description, tags, wmbt, notes⟩
    exact find?_map_if _ _ r (by simp) st.recs hr'
  · have hsel : Store.selectOne
        ⟨st.counter, st.recs.map
          (fun q => if decide (q.id = some (⟨t, k⟩ : Thing))
            then ⟨some ⟨t, k⟩, title, description, tags, wmbt, notes⟩ else q)⟩ t k
        = some ⟨some ⟨t, k⟩, title, description, tags, wmbt, notes⟩ :=
      find?_map_if _ _ r (by simp) st.recs hr'
    simp only [get_idea_by_id_server, hid, hsel]
    rfl

/-- Witness for Claim C4 at a concrete one-record store, updating the
checklist to empty and the notes to the empty string. -/
theorem update_then_get_exact_witness :
    ∃ st' : Store,
      update_idea_server (⟨1, [⟨some ⟨"ideas", "k"⟩, "A", "B", ["c"], ["d"], "e"⟩]⟩ : Store)
          "ideas:k" "T" "D" ["x"] [] ""
        = (st', .ok ⟨some ("ideas" ++ ":" ++ "k"), "T", "D", ["x"], [], ""⟩) ∧
      st'.selectOne "ideas" "k" = some ⟨some ⟨"ideas", "k"⟩, "T", "D", ["x"], [], ""⟩ ∧
      get_idea_by_id_server st' "ideas:k"
        = .ok ⟨some ("ideas" ++ ":" ++ "k"), "T", "D", ["x"], [], ""⟩ :=
  update_then_get_exact (⟨1, [⟨some ⟨"ideas", "k"⟩, "A", "B", ["c"], ["d"], "e"⟩]⟩ : Store)
    "ideas:k" "ideas" "k" "T" "D" ["x"] [] ""
    ⟨some ⟨"ideas", "k"⟩, "A", "B", ["c"], ["d"], "e"⟩ (by decide) (by decide)

/-- Claim C5 (confirmed): for a stored record, Delete succeeds and a
subsequent GetById on the same well-formed id fails with the not-found
error — the record is no longer retrievable. -/
theorem delete_then_get_not_found (st : Store) (id t k : String) (r : IdeaRecord)
    (hid : splitStr ':' id = [t, k]) (_hr : st.selectOne t k = some r) :
    ∃ st' : Store,
      delete_idea_server st id = (st', .ok ()) ∧
      st'.selectOne t k = none ∧
      get_idea_by_id_server st' id = .error ("Idea not found: " ++ id) := by
  refine ⟨⟨st.counter, st.recs.filter
      (fun q => ! decide (q.id = some (⟨t, k⟩ : Thing)))⟩, ?_, ?_, ?_⟩
  · simp only [delete_idea_server, hid, Store.delete]
  · exact find?_filter_not _ _
  · have hsel : Store.selectOne
        ⟨st.counter, st.recs.filter (fun q => ! decide (q.id = some (⟨t, k⟩ : Thing)))⟩ t k
        = none := find?_filter_not _ _
    simp only [get_idea_by_id_server, hid, hsel]

/-- Witness for Claim C5 at a concrete one-record store. -/
theorem delete_then_get_not_found_witness :
    ∃ st' : Store,
      delete_idea_server (⟨1, [⟨some ⟨"ideas", "k"⟩, "A", "B", [], [], ""⟩]⟩ : Store) "ideas:k"
        = (st', .ok ()) ∧
      st'.selectOne "ideas" "k" = none ∧
      get_idea_by_id_server st' "ideas:k" = .error ("Idea not found: " ++ "ideas:k") :=
  delete_then_get_not_found (⟨1, [⟨some ⟨"ideas", "k"⟩, "A", "B", [], [], ""⟩]⟩ : Store)
    "ideas:k" "ideas" "k" ⟨some ⟨"ideas", "k"⟩, "A", "B", [], [], ""⟩ (by decide) (by decide)

/-- Claim C6 (confirmed): for a syntactically valid id referring to no
stored record, GetById fails with the not-found error, and Update likewise
fails with the not-found error while leaving the store untouched. -/
theorem missing_record_not_found (st : Store) (id t k : String)
    (hid : splitStr ':' id = [t, k]) (hnone : st.selectOne t k = none) :
    get_idea_by_id_server st id = .error ("Idea not found: " ++ id) ∧
    ∀ (title description : String) (tags wmbt : List String) (notes : String),
      update_idea_server st id title description tags wmbt notes
        = (st, .error ("Idea not found: " ++ id)) := by
  constructor
  · simp only [get_idea_by_id_server, hid, hnone]
  · intro title description tags wmbt notes
    simp only [update_idea_server, hid, Store.update, hnone]

/-- Witness for Claim C6 on the empty store and the valid id `"ideas:none"`. -/
theorem missing_record_not_found_witness :
    get_idea_by_id_server emptyStore "ideas:none" = .error ("Idea not found: " ++ "ideas:none") ∧
    update_idea_server emptyStore "ideas:none" "T" "D" [] [] ""
      = (emptyStore, .error ("Idea not found: " ++ "ideas:none")) :=
  ⟨(missing_record_not_found emptyStore "ideas:none" "ideas" "none" (by decide) (by decide)).1,
   (missing_record_not_found emptyStore "ideas:none" "ideas" "none" (by decide) (by decide)).2
     "T" "D" [] [] ""⟩

/-- Claim C7 (confirmed): serializing any Idea and deserializing the result
yields a structurally equal value, and deserializing a legacy document that
lacks the checklist and notes fields yields the empty-list and empty-string
defaults. -/
theorem idea_serde_round_trip :
    (∀ i : Idea, deserializeIdea (serializeIdea i) = i) ∧
    (∀ (id : Option String) (title description : String) (tags : List String),
      deserializeIdea ⟨id, title, description, tags, none, none⟩
        = ⟨id, title, description, tags, [], ""⟩) := by
  constructor
  · intro i
    cases i
    rfl
  · intro id title description tags
    rfl

/-- Claim C8 (confirmed): ListAll on the empty store returns the empty
sequence; on every store it succeeds (never an error) and returns exactly
one converted Idea per record stored under the `"ideas"` table. -/
theorem list_all_total :
    get_all_ideas_server emptyStore = .ok [] ∧
    ∀ st : Store, ∃ ideas : List Idea,
      get_all_ideas_server st = .ok ideas ∧
      ideas = (st.selectAll "ideas").map Idea.ofRecord ∧
      ideas.length = (st.selectAll "ideas").length := by
  exact ⟨rfl, fun st => ⟨_, rfl, rfl, by simp⟩⟩

/-- Claim C9 (confirmed): the record-to-idea conversion is a total
projection that renders a present id to the `"table:key"` string and copies
the five remaining fields verbatim; it is lossless (injective) on records
whose table names are colon-free, as all records of this system are. -/
theorem record_to_idea_total_projection :
    (∀ r : IdeaRecord, Idea.ofRecord r
       = ⟨r.id.map Thing.toString, r.title, r.description, r.tags,
          r.what_must_be_true, r.development_notes⟩) ∧
    (∀ (r : IdeaRecord) (th : Thing), r.id = some th →
       (Idea.ofRecord r).id = some (th.tb ++ ":" ++ th.id)) ∧
    (∀ r₁ r₂ : IdeaRecord,
       (∀ th : Thing, r₁.id = some th → ':' ∉ th.tb.data) →
       (∀ th : Thing, r₂.id = some th → ':' ∉ th.tb.data) →
       Idea.ofRecord r₁ = Idea.ofRecord r₂ → r₁ = r₂) := by
  refine ⟨fun r => rfl, ?_, ?_⟩
  · intro r th h
    simp [Idea.ofRecord, h, Thing.toString]
  · intro r₁ r₂ h₁ h₂ heq
    obtain ⟨i₁, t₁, d₁, g₁, w₁, n₁⟩ := r₁
    obtain ⟨i₂, t₂, d₂, g₂, w₂, n₂⟩ := r₂
    simp [Idea.ofRecord, Idea.mk.injEq] at heq
    obtain ⟨hid, ht, hd, hg, hw, hn⟩ := heq
    subst ht
    subst hd
    subst hg
    subst hw
    subst hn
    cases i₁ with
    | none =>
      cases i₂ with
      | none => rfl
      | some th₂ => simp at hid
    | some th₁ =>
      cases i₂ with
      | none => simp at hid
      | some th₂ =>
        simp [Thing.toString] at hid
        have hc₁ : ':' ∉ th₁.tb.data := h₁ th₁ rfl
        have hc₂ : ':' ∉ th₂.tb.data := h₂ th₂ rfl
        have hdata : th₁.tb.data ++ ':' :: th₁.id.data = th₂.tb.data ++ ':' :: th₂.id.data := by
          have h3 := congrArg String.data hid
          simpa [String.data_append] using h3
        obtain ⟨e1, e2⟩ := append_cons_injective ':' th₁.tb.data th₂.tb.data
          th₁.id.data th₂.id.data hc₁ hc₂ hdata
        have hth : th₁ = th₂ := by
          obtain ⟨tb₁, id₁⟩ := th₁
          obtain ⟨tb₂, id₂⟩ := th₂
          simp only at e1 e2
          rw [String.ext e1, String.ext e2]
        rw [hth]

/-- Witness for Claim C9's injectivity part at a concrete record with the
colon-free table `"ideas"`. -/
theorem record_to_idea_total_projection_witness :
    (⟨some ⟨"ideas", "abc"⟩, "t", "d", ["g"], [], ""⟩ : IdeaRecord)
      = ⟨some ⟨"ideas", "abc"⟩, "t", "d", ["g"], [], ""⟩ :=
  record_to_idea_total_projection.2.2
    ⟨some ⟨"ideas", "abc"⟩, "t", "d", ["g"], [], ""⟩
    ⟨some ⟨"ideas", "abc"⟩, "t", "d", ["g"], [], ""⟩
    (by intro th h; injection h with h2; rw [← h2]; decide)
    (by intro th h; injection h with h2; rw [← h2]; decide)
    rfl

/-- Claim C10 (confirmed): Delete on a well-formed id whose record does not
exist still returns success — the optional deleted record from the store is
discarded, never inspected — and the store is unchanged. -/
theorem delete_missing_record_ok (st : Store) (id t k : String)
    (hid : splitStr ':' id = [t, k]) (hnone : st.selectOne t k = none) :
    delete_idea_server st id = (st, .ok ()) := by
  have hk : (st.recs.filter (fun q => ! decide (q.id = some (⟨t, k⟩ : Thing)))) = st.recs :=
    filter_keep_of_none _ st.recs hnone
  obtain ⟨c, recs⟩ := st
  simp only [delete_idea_server, hid, Store.delete]
  simp only at hk
  rw [hk]

/-- Witness for Claim C10: deleting the absent key `"zz"` from a store that
holds one unrelated record succeeds and leaves the store as it was. -/
theorem delete_missing_record_ok_witness :
    delete_idea_server (⟨3, [⟨some ⟨"ideas", "a"⟩, "T", "D", [], [], ""⟩]⟩ : Store) "ideas:zz"
      = ((⟨3, [⟨some ⟨"ideas", "a"⟩, "T", "D", [], [], ""⟩]⟩ : Store), .ok ()) :=
  delete_missing_record_ok (⟨3, [⟨some ⟨"ideas", "a"⟩, "T", "D", [], [], ""⟩]⟩ : Store)
    "ideas:zz" "ideas" "zz" (by decide) (by decide)
